import Mathlib

/-!
Shallow embedding of streamis.py: the Subscription relay and the
SubscriptionManager registry, with the calls made to the redis client
recorded as an explicit trace.

Modelling conventions, all derived from the source:
* A listener (an SSEHandler) is identified by a natural number; its
  inbound queue is the list of messages put into it, oldest first.
* A Subscription object carries an identity `sid` because the Python
  objects survive being popped from the manager dict: the broadcast
  task created in SubscriptionManager.subscribe keeps a reference, so
  popping the dict entry does not destroy the object.  Mutation of a
  Subscription is modelled as updating every stored copy with that sid.
* `terminated` records that the broadcast coroutine has returned (its
  while-loop condition `len(self.listeners) > 0` became false).  A
  returned coroutine is never resumed, so runBroadcast on a terminated
  relay is a no-op.
* `opens` is the trace of calls to `redis.subscribe(name)` made by
  Subscription.subscribe; `releases` is the trace of upstream releases.
  No statement in streamis.py ever unsubscribes or closes the redis
  subscription, so no operation appends to `releases`.
Process logging (logger.warning / logger.debug) is outside the state,
matching the spec, which places logging out of scope.
-/

namespace Streamis

/-- Messages are opaque payloads; strings suffice for the model. -/
abbrev Msg := String

/-- A listener is identified by the identity of its SSEHandler object. -/
abbrev ListenerId := Nat

/-- The per-listener inbound queues (SSEHandler.queue contents). -/
abbrev Queues := ListenerId → List Msg

/-- Embedding of the Subscription class of streamis.py.  `sid` is the
object identity, `name` the channel, `listeners` the Python set
`self.listeners`, and `terminated` whether the broadcast coroutine has
returned. -/
structure Subscription where
  sid : Nat
  name : String
  listeners : Finset ListenerId
  terminated : Bool
deriving DecidableEq

/-- Subscription.add_listener: `self.listeners.add(listener)`. -/
def Subscription.add_listener (s : Subscription) (l : ListenerId) : Subscription :=
  { s with listeners := insert l s.listeners }

/-- One iteration body of Subscription.broadcast for one message:
try `listener.queue.put_nowait(msg)` for every listener, collect the
listeners whose enqueue raised into `closed`, and remove them from the
set after the sweep.  `fails l = true` models `put_nowait` raising for
listener `l`. -/
def Subscription.deliver (s : Subscription) (qs : Queues)
    (fails : ListenerId → Bool) (msg : Msg) : Subscription × Queues :=
  let closed := s.listeners.filter (fun l => fails l = true)
  ({ s with listeners := s.listeners \ closed },
   fun l => if l ∈ s.listeners ∧ fails l = false then qs l ++ [msg] else qs l)

/-- Subscription.broadcast run on a finite schedule of upstream
messages: while the listener set is nonempty, pull the next message and
deliver it.  When the set is empty the while-loop exits and the
coroutine returns (`terminated := true`); when the schedule is
exhausted with listeners remaining, the loop is still suspended on
`self.channel.get()`.  `fails m l` models `put_nowait` raising for
listener `l` on message `m`. -/
def Subscription.broadcast (fails : Msg → ListenerId → Bool) :
    List Msg → Subscription → Queues → Subscription × Queues
  | msgs, s, qs =>
    if s.listeners = ∅ then ({ s with terminated := true }, qs)
    else
      match msgs with
      | [] => (s, qs)
      | m :: ms =>
          Subscription.broadcast fails ms (s.deliver qs (fails m) m).1
            (s.deliver qs (fails m) m).2

/-- Lookup in the manager dict `self.subscriptions`, keyed by channel
name, returning the identity of the stored Subscription. -/
def lookupReg : List (String × Nat) → String → Option Nat
  | [], _ => none
  | (a, b) :: r, c => if a = c then some b else lookupReg r c

/-- `self.subscriptions.pop(channel)`: drop the entry for the key. -/
def removeKey : List (String × Nat) → String → List (String × Nat)
  | [], _ => []
  | (a, b) :: r, c => if a = c then removeKey r c else (a, b) :: removeKey r c

/-- Dereference a Subscription object identity among the live relay
objects. -/
def findRelay : List Subscription → Nat → Option Subscription
  | [], _ => none
  | s :: r, sid => if s.sid = sid then some s else findRelay r sid

/-- In-place mutation of the Subscription object with identity `sid`:
every stored view of it is updated. -/
def updateRelay (rel : List Subscription) (sid : Nat)
    (f : Subscription → Subscription) : List Subscription :=
  rel.map (fun s => if s.sid = sid then f s else s)

/-- Embedding of SubscriptionManager plus the environment it touches:
`registry` is the dict `self.subscriptions` (channel name to object
identity); `relays` holds every live Subscription object, including
those popped from the dict whose broadcast task still references them;
`queues` the listener queues; `opens` and `releases` the trace of
upstream subscribe and release calls against the redis client.  `nextSid`
allocates fresh object identities. -/
structure SMState where
  nextSid : Nat
  registry : List (String × Nat)
  relays : List Subscription
  queues : Queues
  opens : List String
  releases : List String

/-- The manager right after `SubscriptionManager.__init__`. -/
def SMState.empty : SMState :=
  ⟨0, [], [], fun _ => [], [], []⟩

/-- SubscriptionManager.subscribe.  If the channel is in the dict,
register the listener on the stored relay.  Otherwise construct a
Subscription, await its upstream subscribe (which appends to `opens`,
or raises when the source is unavailable, modelled by
`upstreamOk = false`), store it in the dict, schedule its broadcast
task, and add the listener.  On a raise nothing has been stored, so the
caller observes the unchanged state with the error. -/
def SMState.subscribe (st : SMState) (listener : ListenerId) (channel : String)
    (upstreamOk : Bool) : Except Unit SMState :=
  match lookupReg st.registry channel with
  | some sid =>
      .ok { st with relays := updateRelay st.relays sid (fun s => s.add_listener listener) }
  | none =>
      if upstreamOk then
        let sub : Subscription := ⟨st.nextSid, channel, ∅, false⟩
        .ok { st with
          nextSid := st.nextSid + 1
          registry := (channel, st.nextSid) :: st.registry
          relays := sub.add_listener listener :: st.relays
          opens := st.opens ++ [channel] }
      else
        .error ()

/-- SubscriptionManager.unsubscribe: warn and return when the channel
has no entry, otherwise pop the dict entry.  The Subscription object
itself is only dropped from the local variable (`del sub`); the
broadcast task keeps it alive, so `relays` is untouched and nothing is
appended to `releases`. -/
def SMState.unsubscribe (st : SMState) (channel : String) : SMState :=
  match lookupReg st.registry channel with
  | none => st
  | some _ => { st with registry := removeKey st.registry channel }

/-- Run the broadcast task of the relay with identity `sid` on a finite
schedule of upstream messages.  A task whose coroutine has already
returned cannot be resumed. -/
def SMState.runBroadcast (st : SMState) (sid : Nat)
    (fails : Msg → ListenerId → Bool) (msgs : List Msg) : SMState :=
  match findRelay st.relays sid with
  | none => st
  | some sub =>
      if sub.terminated then st
      else
        let r := Subscription.broadcast fails msgs sub st.queues
        { st with
          relays := updateRelay st.relays sid (fun _ => r.1)
          queues := r.2 }

/-- The operations the manager state is driven by. -/
inductive Op where
  | sub (listener : ListenerId) (channel : String) (upstreamOk : Bool)
  | unsub (channel : String)
  | bcast (sid : Nat) (fails : Msg → ListenerId → Bool) (msgs : List Msg)

/-- Apply one operation; a subscribe whose upstream open raises leaves
the state unchanged at the caller. -/
def applyOp (st : SMState) : Op → SMState
  | .sub l c ok =>
      match st.subscribe l c ok with
      | .ok st1 => st1
      | .error _ => st
  | .unsub c => st.unsubscribe c
  | .bcast sid fails msgs => st.runBroadcast sid fails msgs

/-- Run a sequence of operations from the freshly constructed manager. -/
def run (ops : List Op) : SMState :=
  ops.foldl applyOp SMState.empty

/-- Whether an operation is an unsubscribe. -/
def Op.isUnsub : Op → Bool
  | .unsub _ => true
  | _ => false

/-- The number of upstream subscriptions for channel `c` that have been
opened and not released. -/
def activeUpstreams (st : SMState) (c : String) : Nat :=
  st.opens.count c - st.releases.count c

/-! Helper lemmas about the embedded operations. -/

lemma add_listener_sid (s : Subscription) (l : ListenerId) :
    (s.add_listener l).sid = s.sid := rfl

lemma add_listener_name (s : Subscription) (l : ListenerId) :
    (s.add_listener l).name = s.name := rfl

lemma add_listener_terminated (s : Subscription) (l : ListenerId) :
    (s.add_listener l).terminated = s.terminated := rfl

lemma add_listener_idem (s : Subscription) (l : ListenerId) :
    (s.add_listener l).add_listener l = s.add_listener l := by
  simp [Subscription.add_listener, Finset.insert_idem]

lemma deliver_fst_sid (s : Subscription) (qs : Queues) (f : ListenerId → Bool) (m : Msg) :
    (s.deliver qs f m).1.sid = s.sid := rfl

lemma deliver_fst_name (s : Subscription) (qs : Queues) (f : ListenerId → Bool) (m : Msg) :
    (s.deliver qs f m).1.name = s.name := rfl

lemma deliver_fst_listeners (s : Subscription) (qs : Queues) (f : ListenerId → Bool) (m : Msg) :
    (s.deliver qs f m).1.listeners
      = s.listeners \ s.listeners.filter (fun l => f l = true) := rfl

lemma deliver_snd (s : Subscription) (qs : Queues) (f : ListenerId → Bool) (m : Msg)
    (l : ListenerId) :
    (s.deliver qs f m).2 l
      = if l ∈ s.listeners ∧ f l = false then qs l ++ [m] else qs l := rfl

lemma deliver_nofail_fst (s : Subscription) (qs : Queues) (m : Msg) :
    (s.deliver qs (fun _ => false) m).1 = s := by
  unfold Subscription.deliver
  simp

lemma lookupReg_cons (a : String) (b : Nat) (r : List (String × Nat)) (c : String) :
    lookupReg ((a, b) :: r) c = if a = c then some b else lookupReg r c := rfl

lemma lookupReg_removeKey_self (r : List (String × Nat)) (c : String) :
    lookupReg (removeKey r c) c = none := by
  induction r with
  | nil => rfl
  | cons p r ih =>
    obtain ⟨a, b⟩ := p
    by_cases h : a = c
    · simp [removeKey, h, ih]
    · simp [removeKey, h, lookupReg_cons, ih]

lemma lookupReg_removeKey_ne (r : List (String × Nat)) (c c2 : String) (h : c2 ≠ c) :
    lookupReg (removeKey r c) c2 = lookupReg r c2 := by
  induction r with
  | nil => rfl
  | cons p r ih =>
    obtain ⟨a, b⟩ := p
    by_cases ha : a = c
    · subst ha
      have : ¬ a = c2 := fun he => h (he ▸ rfl)
      simp [removeKey, lookupReg_cons, this, ih]
    · simp [removeKey, ha, lookupReg_cons, ih]

lemma mem_removeKey {r : List (String × Nat)} {c : String} {p : String × Nat}
    (h : p ∈ removeKey r c) : p ∈ r := by
  induction r with
  | nil => simp [removeKey] at h
  | cons q r ih =>
    obtain ⟨a, b⟩ := q
    by_cases ha : a = c
    · simp only [removeKey, if_pos ha] at h
      exact List.mem_cons_of_mem _ (ih h)
    · simp only [removeKey, if_neg ha, List.mem_cons] at h
      rcases h with h | h
      · exact h ▸ List.mem_cons_self _ _
      · exact List.mem_cons_of_mem _ (ih h)

lemma findRelay_mem {rel : List Subscription} {sid : Nat} {s : Subscription}
    (h : findRelay rel sid = some s) : s ∈ rel ∧ s.sid = sid := by
  induction rel with
  | nil => simp [findRelay] at h
  | cons t r ih =>
    by_cases ht : t.sid = sid
    · simp only [findRelay, if_pos ht] at h
      cases h
      exact ⟨List.mem_cons_self _ _, ht⟩
    · simp only [findRelay, if_neg ht] at h
      obtain ⟨hm, hs⟩ := ih h
      exact ⟨List.mem_cons_of_mem _ hm, hs⟩

lemma findRelay_updateRelay (rel : List Subscription) (sid : Nat)
    (f : Subscription → Subscription) (hf : ∀ s, (f s).sid = s.sid) :
    findRelay (updateRelay rel sid f) sid = (findRelay rel sid).map f := by
  induction rel with
  | nil => rfl
  | cons t r ih =>
    by_cases ht : t.sid = sid
    · have hft : (f t).sid = sid := by rw [hf]; exact ht
      simp [updateRelay, findRelay, ht, hft] at ih ⊢
    · simp only [updateRelay, List.map] at ih ⊢
      simp [findRelay, ht, ih]

lemma mem_updateRelay {rel : List Subscription} {sid : Nat} {f : Subscription → Subscription}
    {s1 : Subscription} (h : s1 ∈ updateRelay rel sid f) :
    ∃ s ∈ rel, s1 = s ∨ s1 = f s := by
  unfold updateRelay at h
  obtain ⟨s, hs, he⟩ := List.mem_map.1 h
  refine ⟨s, hs, ?_⟩
  by_cases hc : s.sid = sid
  · right; rw [← he, if_pos hc]
  · left; rw [← he, if_neg hc]

lemma map_congr_mem {α β : Type} (f g : α → β) :
    ∀ (l : List α), (∀ a ∈ l, f a = g a) → l.map f = l.map g := by
  intro l
  induction l with
  | nil => intro _; rfl
  | cons a l ih =>
    intro h
    simp only [List.map]
    rw [h a (List.mem_cons_self _ _), ih (fun b hb => h b (List.mem_cons_of_mem _ hb))]

lemma map_eq_self {α : Type} (f : α → α) :
    ∀ (l : List α), (∀ a ∈ l, f a = a) → l.map f = l := by
  intro l h
  rw [map_congr_mem f id l h, List.map_id]

lemma broadcast_nil (fails : Msg → ListenerId → Bool) (s : Subscription) (qs : Queues) :
    Subscription.broadcast fails [] s qs
      = if s.listeners = ∅ then ({ s with terminated := true }, qs) else (s, qs) := rfl

lemma broadcast_cons (fails : Msg → ListenerId → Bool) (m : Msg) (ms : List Msg)
    (s : Subscription) (qs : Queues) :
    Subscription.broadcast fails (m :: ms) s qs
      = if s.listeners = ∅ then ({ s with terminated := true }, qs)
        else Subscription.broadcast fails ms (s.deliver qs (fails m) m).1
          (s.deliver qs (fails m) m).2 := rfl

lemma broadcast_fst_fields (fails : Msg → ListenerId → Bool) :
    ∀ (msgs : List Msg) (s : Subscription) (qs : Queues),
      (Subscription.broadcast fails msgs s qs).1.sid = s.sid ∧
      (Subscription.broadcast fails msgs s qs).1.name = s.name := by
  intro msgs
  induction msgs with
  | nil =>
    intro s qs
    rw [broadcast_nil]
    by_cases h : s.listeners = ∅ <;> simp [h]
  | cons m ms ih =>
    intro s qs
    rw [broadcast_cons]
    by_cases h : s.listeners = ∅
    · simp [h]
    · rw [if_neg h]
      obtain ⟨h1, h2⟩ := ih (s.deliver qs (fails m) m).1 (s.deliver qs (fails m) m).2
      rw [h1, h2, deliver_fst_sid, deliver_fst_name]
      exact ⟨rfl, rfl⟩

lemma broadcast_nofail (l : ListenerId) :
    ∀ (msgs : List Msg) (s : Subscription) (qs : Queues), l ∈ s.listeners →
      (Subscription.broadcast (fun _ _ => false) msgs s qs).1 = s ∧
      (Subscription.broadcast (fun _ _ => false) msgs s qs).2 l = qs l ++ msgs := by
  intro msgs
  induction msgs with
  | nil =>
    intro s qs hl
    have hne : s.listeners ≠ ∅ := Finset.ne_empty_of_mem hl
    rw [broadcast_nil, if_neg hne]
    simp
  | cons m ms ih =>
    intro s qs hl
    have hne : s.listeners ≠ ∅ := Finset.ne_empty_of_mem hl
    rw [broadcast_cons, if_neg hne]
    have hfst : (s.deliver qs (fun _ => false) m).1 = s := deliver_nofail_fst s qs m
    have hl2 : l ∈ (s.deliver qs (fun _ => false) m).1.listeners := by rw [hfst]; exact hl
    obtain ⟨h1, h2⟩ := ih (s.deliver qs (fun _ => false) m).1
      (s.deliver qs (fun _ => false) m).2 hl2
    refine ⟨by rw [h1, hfst], ?_⟩
    rw [h2, deliver_snd, if_pos ⟨hl, rfl⟩, List.append_assoc]
    rfl

lemma applyOp_sub_hit {st : SMState} {l : ListenerId} {c : String} {ok : Bool} {sid : Nat}
    (hc : lookupReg st.registry c = some sid) :
    applyOp st (Op.sub l c ok)
      = { st with relays := updateRelay st.relays sid (fun s => s.add_listener l) } := by
  simp [applyOp, SMState.subscribe, hc]

lemma applyOp_sub_miss {st : SMState} {l : ListenerId} {c : String}
    (hc : lookupReg st.registry c = none) :
    applyOp st (Op.sub l c true)
      = { st with
          nextSid := st.nextSid + 1
          registry := (c, st.nextSid) :: st.registry
          relays := (Subscription.mk st.nextSid c ∅ false).add_listener l :: st.relays
          opens := st.opens ++ [c] } := by
  simp [applyOp, SMState.subscribe, hc]

lemma applyOp_sub_fail {st : SMState} {l : ListenerId} {c : String}
    (hc : lookupReg st.registry c = none) :
    applyOp st (Op.sub l c false) = st := by
  simp [applyOp, SMState.subscribe, hc]

lemma applyOp_unsub_miss {st : SMState} {c : String}
    (hc : lookupReg st.registry c = none) :
    applyOp st (Op.unsub c) = st := by
  simp [applyOp, SMState.unsubscribe, hc]

lemma applyOp_unsub_hit {st : SMState} {c : String} {sid : Nat}
    (hc : lookupReg st.registry c = some sid) :
    applyOp st (Op.unsub c) = { st with registry := removeKey st.registry c } := by
  simp [applyOp, SMState.unsubscribe, hc]

lemma applyOp_bcast_none {st : SMState} {sid : Nat} {fails : Msg → ListenerId → Bool}
    {msgs : List Msg} (hf : findRelay st.relays sid = none) :
    applyOp st (Op.bcast sid fails msgs) = st := by
  simp [applyOp, SMState.runBroadcast, hf]

lemma applyOp_bcast_term {st : SMState} {sid : Nat} {fails : Msg → ListenerId → Bool}
    {msgs : List Msg} {sub : Subscription} (hf : findRelay st.relays sid = some sub)
    (ht : sub.terminated = true) :
    applyOp st (Op.bcast sid fails msgs) = st := by
  simp [applyOp, SMState.runBroadcast, hf, ht]

lemma applyOp_bcast_live {st : SMState} {sid : Nat} {fails : Msg → ListenerId → Bool}
    {msgs : List Msg} {sub : Subscription} (hf : findRelay st.relays sid = some sub)
    (ht : sub.terminated = false) :
    applyOp st (Op.bcast sid fails msgs)
      = { st with
          relays := updateRelay st.relays sid
            (fun _ => (Subscription.broadcast fails msgs sub st.queues).1)
          queues := (Subscription.broadcast fails msgs sub st.queues).2 } := by
  simp [applyOp, SMState.runBroadcast, hf, ht]

/-- Reachability invariant of the manager state: relay object
identities are allocated below `nextSid`, registry entries point below
`nextSid`, and every relay object reachable from a registry entry
carries the channel name it is keyed under. -/
def Inv (st : SMState) : Prop :=
  (∀ s ∈ st.relays, s.sid < st.nextSid) ∧
  (∀ p ∈ st.registry, p.2 < st.nextSid) ∧
  (∀ c sid, (c, sid) ∈ st.registry → ∀ s ∈ st.relays, s.sid = sid → s.name = c)

lemma inv_empty : Inv SMState.empty := by
  refine ⟨?_, ?_, ?_⟩
  · intro s hs; simp [SMState.empty] at hs
  · intro p hp; simp [SMState.empty] at hp
  · intro c sid hm; simp [SMState.empty] at hm

lemma inv_applyOp {st : SMState} (h : Inv st) (o : Op) : Inv (applyOp st o) := by
  obtain ⟨h1, h2, h3⟩ := h
  cases o with
  | sub l c ok =>
    cases hc : lookupReg st.registry c with
    | some sid =>
      rw [applyOp_sub_hit hc]
      refine ⟨?_, h2, ?_⟩
      · intro s1 hs1
        obtain ⟨s, hs, he⟩ := mem_updateRelay hs1
        rcases he with he | he
        · exact he ▸ h1 s hs
        · rw [he, add_listener_sid]; exact h1 s hs
      · intro c2 sid2 hm s1 hs1 hsid
        obtain ⟨s, hs, he⟩ := mem_updateRelay hs1
        rcases he with he | he
        · rw [he] at hsid ⊢; exact h3 c2 sid2 hm s hs hsid
        · rw [he, add_listener_name]
          exact h3 c2 sid2 hm s hs (by rw [← add_listener_sid s l, ← he]; exact hsid)
    | none =>
      cases ok with
      | false => rw [applyOp_sub_fail hc]; exact ⟨h1, h2, h3⟩
      | true =>
        rw [applyOp_sub_miss hc]
        refine ⟨?_, ?_, ?_⟩
        · intro s1 hs1
          rcases List.mem_cons.1 hs1 with he | hs
          · rw [he, add_listener_sid]; exact Nat.lt_succ_self _
          · exact Nat.lt_succ_of_lt (h1 s1 hs)
        · intro p hp
          rcases List.mem_cons.1 hp with he | hp
          · rw [he]; exact Nat.lt_succ_self _
          · exact Nat.lt_succ_of_lt (h2 p hp)
        · intro c2 sid2 hm s1 hs1 hsid
          rcases List.mem_cons.1 hm with hm | hm
          · obtain ⟨hc2, hsid2⟩ := Prod.mk.injEq .. ▸ hm
            rcases List.mem_cons.1 hs1 with he | hs
            · rw [he, add_listener_name, hc2]
            · exfalso
              have := h1 s1 hs
              rw [hsid, ← hsid2] at this
              exact Nat.lt_irrefl _ this
          · have hlt : sid2 < st.nextSid := h2 (c2, sid2) hm
            rcases List.mem_cons.1 hs1 with he | hs
            · exfalso
              rw [he, add_listener_sid] at hsid
              rw [← hsid] at hlt
              exact Nat.lt_irrefl _ hlt
            · exact h3 c2 sid2 hm s1 hs hsid
  | unsub c =>
    cases hc : lookupReg st.registry c with
    | none => rw [applyOp_unsub_miss hc]; exact ⟨h1, h2, h3⟩
    | some sid =>
      rw [applyOp_unsub_hit hc]
      refine ⟨h1, ?_, ?_⟩
      · intro p hp
        exact h2 p (mem_removeKey hp)
      · intro c2 sid2 hm s1 hs1 hsid
        exact h3 c2 sid2 (mem_removeKey hm) s1 hs1 hsid
  | bcast sid fails msgs =>
    cases hf : findRelay st.relays sid with
    | none => rw [applyOp_bcast_none hf]; exact ⟨h1, h2, h3⟩
    | some sub =>
      cases ht : sub.terminated with
      | true => rw [applyOp_bcast_term hf ht]; exact ⟨h1, h2, h3⟩
      | false =>
        rw [applyOp_bcast_live hf ht]
        obtain ⟨hsubmem, hsubsid⟩ := findRelay_mem hf
        obtain ⟨hbsid, hbname⟩ :=
          broadcast_fst_fields fails msgs sub st.queues
        refine ⟨?_, h2, ?_⟩
        · intro s1 hs1
          obtain ⟨s, hs, he⟩ := mem_updateRelay hs1
          rcases he with he | he
          · exact he ▸ h1 s hs
          · rw [he, hbsid, hsubsid]
            rw [← hsubsid]
            exact h1 sub hsubmem
        · intro c2 sid2 hm s1 hs1 hsid
          obtain ⟨s, hs, he⟩ := mem_updateRelay hs1
          rcases he with he | he
          · rw [he] at hsid ⊢; exact h3 c2 sid2 hm s hs hsid
          · rw [he, hbname]
            refine h3 c2 sid2 hm sub hsubmem ?_
            rw [← hbsid, ← he]
            exact hsid

lemma inv_foldl : ∀ (ops : List Op) (st : SMState), Inv st → Inv (ops.foldl applyOp st) := by
  intro ops
  induction ops with
  | nil => intro st h; exact h
  | cons o ops ih =>
    intro st h
    exact ih (applyOp st o) (inv_applyOp h o)

lemma inv_run (ops : List Op) : Inv (run ops) :=
  inv_foldl ops SMState.empty inv_empty

/-- In the absence of unsubscribe, the count of upstream opens for a
channel tracks its presence in the registry. -/
def OpensInv (st : SMState) : Prop :=
  ∀ c, st.opens.count c = if (lookupReg st.registry c).isSome then 1 else 0

lemma opensInv_empty : OpensInv SMState.empty := by
  intro c
  simp [SMState.empty, lookupReg]

lemma opensInv_applyOp {st : SMState} (h : OpensInv st) (o : Op)
    (ho : o.isUnsub = false) : OpensInv (applyOp st o) := by
  cases o with
  | sub l c ok =>
    cases hc : lookupReg st.registry c with
    | some sid =>
      rw [applyOp_sub_hit hc]
      exact h
    | none =>
      cases ok with
      | false => rw [applyOp_sub_fail hc]; exact h
      | true =>
        rw [applyOp_sub_miss hc]
        intro d
        by_cases hd : d = c
        · subst hd
          have h0 : st.opens.count d = 0 := by
            have := h d
            rw [hc] at this
            simpa using this
          simp [List.count_append, h0, lookupReg_cons]
        · have hdc : ¬ c = d := fun he => hd (he ▸ rfl)
          have := h d
          simp [List.count_append, lookupReg_cons, hdc, this, List.count_cons,
            List.count_nil, hd]
  | unsub c => simp [Op.isUnsub] at ho
  | bcast sid fails msgs =>
    cases hf : findRelay st.relays sid with
    | none => rw [applyOp_bcast_none hf]; exact h
    | some sub =>
      cases ht : sub.terminated with
      | true => rw [applyOp_bcast_term hf ht]; exact h
      | false => rw [applyOp_bcast_live hf ht]; exact h

lemma opensInv_foldl : ∀ (ops : List Op) (st : SMState), OpensInv st →
    (∀ o ∈ ops, o.isUnsub = false) → OpensInv (ops.foldl applyOp st) := by
  intro ops
  induction ops with
  | nil => intro st h _; exact h
  | cons o ops ih =>
    intro st h hno
    exact ih (applyOp st o) (opensInv_applyOp h o (hno o (List.mem_cons_self _ _)))
      (fun o2 ho2 => hno o2 (List.mem_cons_of_mem _ ho2))

lemma updateRelay_idem (rel : List Subscription) (sid : Nat) (f : Subscription → Subscription)
    (hsid : ∀ s, (f s).sid = s.sid) (hf : ∀ s, f (f s) = f s) :
    updateRelay (updateRelay rel sid f) sid f = updateRelay rel sid f := by
  unfold updateRelay
  rw [List.map_map]
  apply map_congr_mem
  intro s _
  by_cases h1 : s.sid = sid
  · simp [Function.comp, h1, hsid, hf]
  · simp [Function.comp, h1]

lemma double_sub {st : SMState} (h : Inv st) (l : ListenerId) (c : String) :
    applyOp (applyOp st (Op.sub l c true)) (Op.sub l c true)
      = applyOp st (Op.sub l c true) := by
  cases hc : lookupReg st.registry c with
  | some sid =>
    rw [applyOp_sub_hit hc]
    have hc1 : lookupReg ({ st with
        relays := updateRelay st.relays sid (fun s => s.add_listener l) } : SMState).registry c
        = some sid := hc
    rw [applyOp_sub_hit hc1]
    have hidem := updateRelay_idem st.relays sid (fun s => s.add_listener l)
      (fun s => add_listener_sid s l) (fun s => add_listener_idem s l)
    simp only [hidem]
  | none =>
    rw [applyOp_sub_miss hc]
    have hc1 : lookupReg ({ st with
          nextSid := st.nextSid + 1
          registry := (c, st.nextSid) :: st.registry
          relays := (Subscription.mk st.nextSid c ∅ false).add_listener l :: st.relays
          opens := st.opens ++ [c] } : SMState).registry c = some st.nextSid := by
      rw [lookupReg_cons, if_pos rfl]
    rw [applyOp_sub_hit hc1]
    have hfix : updateRelay
        ((Subscription.mk st.nextSid c ∅ false).add_listener l :: st.relays) st.nextSid
        (fun s => s.add_listener l)
        = (Subscription.mk st.nextSid c ∅ false).add_listener l :: st.relays := by
      unfold updateRelay
      rw [List.map_cons]
      congr 1
      · show (if ((Subscription.mk st.nextSid c ∅ false).add_listener l).sid = st.nextSid
            then ((Subscription.mk st.nextSid c ∅ false).add_listener l).add_listener l
            else (Subscription.mk st.nextSid c ∅ false).add_listener l)
          = (Subscription.mk st.nextSid c ∅ false).add_listener l
        rw [if_pos (add_listener_sid _ l), add_listener_idem]
      · rw [map_eq_self]
        intro s hs
        show (if s.sid = st.nextSid then s.add_listener l else s) = s
        rw [if_neg (Nat.ne_of_lt (h.1 s hs))]
    simp only [hfix]

/-! Claim theorems. -/

/-- C1, counterexample.  Subscribe listener 1 to channel c, then call
unsubscribe for c.  Contrary to the claim, the relay object (identity
0) keeps listener 1 in its listener set, its loop has not terminated
and it still delivers a later message "a" to listener 1, and the
upstream subscription has not been released (`releases` is empty).
Only the registry entry is gone. -/
theorem unsubscribe_leaves_relay_cex :
    findRelay ((run [Op.sub 1 "c" true]).unsubscribe "c").relays 0
      = some ⟨0, "c", {1}, false⟩ ∧
    ((run [Op.sub 1 "c" true]).unsubscribe "c").releases = [] ∧
    (((run [Op.sub 1 "c" true]).unsubscribe "c").runBroadcast 0
        (fun _ _ => false) ["a"]).queues 1 = ["a"] := by
  decide

/-- C1, amended: for a channel with an existing relay, unsubscribe
removes the relay entry from the registry, so a later subscribe for the
same channel creates a brand-new relay with a fresh upstream
subscription; however no listener is removed from the popped relay
(its listener set, loop and upstream are untouched: `relays` and
`releases` are unchanged). -/
theorem unsubscribe_pops_entry_only (st : SMState) (c : String) (sid : Nat)
    (h : lookupReg st.registry c = some sid) (l : ListenerId) :
    (st.unsubscribe c).relays = st.relays ∧
    (st.unsubscribe c).releases = st.releases ∧
    lookupReg (st.unsubscribe c).registry c = none ∧
    ∃ st1, (st.unsubscribe c).subscribe l c true = Except.ok st1 ∧
      st1.nextSid = st.nextSid + 1 ∧
      lookupReg st1.registry c = some st.nextSid ∧
      st1.opens = st.opens ++ [c] := by
  have hunsub : st.unsubscribe c = { st with registry := removeKey st.registry c } := by
    simp [SMState.unsubscribe, h]
  rw [hunsub]
  have hnone : lookupReg (removeKey st.registry c) c = none :=
    lookupReg_removeKey_self st.registry c
  refine ⟨rfl, rfl, hnone, ?_⟩
  refine ⟨{ st with
      nextSid := st.nextSid + 1
      registry := (c, st.nextSid) :: removeKey st.registry c
      relays := (Subscription.mk st.nextSid c ∅ false).add_listener l :: st.relays
      opens := st.opens ++ [c] }, ?_, rfl, ?_, rfl⟩
  · simp [SMState.subscribe, hnone]
  · rw [lookupReg_cons, if_pos rfl]

/-- C1, witness for the amended theorem at a concrete state. -/
theorem unsubscribe_pops_entry_only_witness :
    lookupReg (run [Op.sub 1 "c" true]).registry "c" = some 0 ∧
    (((run [Op.sub 1 "c" true]).unsubscribe "c").relays = (run [Op.sub 1 "c" true]).relays ∧
     ((run [Op.sub 1 "c" true]).unsubscribe "c").releases
       = (run [Op.sub 1 "c" true]).releases ∧
     lookupReg ((run [Op.sub 1 "c" true]).unsubscribe "c").registry "c" = none ∧
     ∃ st1, ((run [Op.sub 1 "c" true]).unsubscribe "c").subscribe 2 "c" true
         = Except.ok st1 ∧
       st1.nextSid = (run [Op.sub 1 "c" true]).nextSid + 1 ∧
       lookupReg st1.registry "c" = some (run [Op.sub 1 "c" true]).nextSid ∧
       st1.opens = (run [Op.sub 1 "c" true]).opens ++ ["c"]) :=
  ⟨by decide, unsubscribe_pops_entry_only (run [Op.sub 1 "c" true]) "c" 0 (by decide) 2⟩

/-- C2, counterexample.  Subscribe listener 1 to c, unsubscribe c, then
subscribe listener 2 to c: two upstream subscriptions for c are now
open and unreleased, and both relay objects are alive with nonempty
listener sets, so the claimed at-most-one invariant fails under
sequences containing unsubscribe. -/
theorem double_upstream_cex :
    activeUpstreams (run [Op.sub 1 "c" true, Op.unsub "c", Op.sub 2 "c" true]) "c" = 2 ∧
    findRelay (run [Op.sub 1 "c" true, Op.unsub "c", Op.sub 2 "c" true]).relays 0
      = some ⟨0, "c", {1}, false⟩ ∧
    findRelay (run [Op.sub 1 "c" true, Op.unsub "c", Op.sub 2 "c" true]).relays 1
      = some ⟨1, "c", {2}, false⟩ := by
  decide

/-- C2, amended: a subscribe that finds an existing relay entry opens
no upstream subscription, and for every sequence of operations that
contains no unsubscribe, at most one upstream subscription per channel
is ever opened (and none released). -/
theorem upstream_dedup_without_unsubscribe :
    (∀ (st : SMState) (l : ListenerId) (c : String) (ok : Bool) (sid : Nat),
        lookupReg st.registry c = some sid →
        ∃ st1, st.subscribe l c ok = Except.ok st1 ∧ st1.opens = st.opens) ∧
    (∀ (ops : List Op) (c : String), (∀ o ∈ ops, o.isUnsub = false) →
        activeUpstreams (run ops) c ≤ 1) := by
  constructor
  · intro st l c ok sid h
    refine ⟨{ st with relays := updateRelay st.relays sid (fun s => s.add_listener l) },
      ?_, rfl⟩
    simp [SMState.subscribe, h]
  · intro ops c hno
    have h := opensInv_foldl ops SMState.empty opensInv_empty hno c
    have hle : (run ops).opens.count c ≤ 1 := by
      rw [run, h]
      split <;> simp
    calc activeUpstreams (run ops) c ≤ (run ops).opens.count c := Nat.sub_le _ _
      _ ≤ 1 := hle

/-- C2, witness for the amended theorem at concrete inputs. -/
theorem upstream_dedup_without_unsubscribe_witness :
    (∃ st1, (run [Op.sub 1 "c" true]).subscribe 2 "c" true = Except.ok st1 ∧
       st1.opens = (run [Op.sub 1 "c" true]).opens) ∧
    activeUpstreams (run [Op.sub 1 "c" true, Op.sub 2 "c" true]) "c" ≤ 1 :=
  ⟨upstream_dedup_without_unsubscribe.1 (run [Op.sub 1 "c" true]) 2 "c" true 0 (by decide),
   upstream_dedup_without_unsubscribe.2 [Op.sub 1 "c" true, Op.sub 2 "c" true] "c"
     (by intro o ho; fin_cases ho <;> rfl)⟩

/-- C3, counterexample.  Listener 1 subscribes to c, its delivery fails
on message "a", so the relay evicts it and the loop terminates.  The
registry still maps c to the dead relay (identity 0); the following
subscribe of listener 2 registers it into that terminated relay — no
fresh relay is created (`nextSid` still 1) and no new upstream is
opened. -/
theorem dead_relay_reuse_cex :
    lookupReg (run [Op.sub 1 "c" true, Op.bcast 0 (fun _ l => l == 1) ["a"],
        Op.sub 2 "c" true]).registry "c" = some 0 ∧
    findRelay (run [Op.sub 1 "c" true, Op.bcast 0 (fun _ l => l == 1) ["a"],
        Op.sub 2 "c" true]).relays 0 = some ⟨0, "c", {2}, true⟩ ∧
    (run [Op.sub 1 "c" true, Op.bcast 0 (fun _ l => l == 1) ["a"],
        Op.sub 2 "c" true]).nextSid = 1 ∧
    (run [Op.sub 1 "c" true, Op.bcast 0 (fun _ l => l == 1) ["a"],
        Op.sub 2 "c" true]).opens = ["c"] := by
  decide

/-- C3, amended: when the relay loop for a registered channel has
terminated, the registry retains the dead entry, and a subsequent
subscribe registers the listener into the terminated relay instead of
creating and starting a fresh one: the registry, sid allocator and
upstream trace are unchanged, and the relay stays terminated. -/
theorem subscribe_joins_dead_relay (st : SMState) (c : String) (sid : Nat) (l : ListenerId)
    (hreg : lookupReg st.registry c = some sid) (s : Subscription)
    (hfind : findRelay st.relays sid = some s) (hterm : s.terminated = true) :
    ∃ st1, st.subscribe l c true = Except.ok st1 ∧
      st1.registry = st.registry ∧ st1.nextSid = st.nextSid ∧ st1.opens = st.opens ∧
      findRelay st1.relays sid = some (s.add_listener l) ∧
      (s.add_listener l).terminated = true := by
  have hsub : st.subscribe l c true = Except.ok { st with
      relays := updateRelay st.relays sid (fun s2 => s2.add_listener l) } := by
    simp [SMState.subscribe, hreg]
  refine ⟨_, hsub, rfl, rfl, rfl, ?_, ?_⟩
  · show findRelay (updateRelay st.relays sid (fun s2 => s2.add_listener l)) sid
      = some (s.add_listener l)
    rw [findRelay_updateRelay st.relays sid _ (fun s2 => add_listener_sid s2 l), hfind]
    rfl
  · rw [add_listener_terminated]; exact hterm

/-- C3, witness for the amended theorem at a concrete state. -/
theorem subscribe_joins_dead_relay_witness :
    lookupReg (run [Op.sub 1 "c" true, Op.bcast 0 (fun _ l => l == 1) ["a"]]).registry "c"
      = some 0 ∧
    findRelay (run [Op.sub 1 "c" true, Op.bcast 0 (fun _ l => l == 1) ["a"]]).relays 0
      = some ⟨0, "c", ∅, true⟩ ∧
    ∃ st1, (run [Op.sub 1 "c" true, Op.bcast 0 (fun _ l => l == 1) ["a"]]).subscribe 2 "c" true
        = Except.ok st1 ∧
      st1.registry = (run [Op.sub 1 "c" true, Op.bcast 0 (fun _ l => l == 1) ["a"]]).registry ∧
      st1.nextSid = (run [Op.sub 1 "c" true, Op.bcast 0 (fun _ l => l == 1) ["a"]]).nextSid ∧
      st1.opens = (run [Op.sub 1 "c" true, Op.bcast 0 (fun _ l => l == 1) ["a"]]).opens ∧
      findRelay st1.relays 0 = some ((⟨0, "c", ∅, true⟩ : Subscription).add_listener 2) ∧
      ((⟨0, "c", ∅, true⟩ : Subscription).add_listener 2).terminated = true :=
  ⟨by decide, by decide,
   subscribe_joins_dead_relay (run [Op.sub 1 "c" true, Op.bcast 0 (fun _ l => l == 1) ["a"]])
     "c" 0 2 (by decide) ⟨0, "c", ∅, true⟩ (by decide) rfl⟩

/-- C4 (confirmed): when no relay exists for the channel and opening
the upstream subscription fails, subscribe propagates the failure to
its caller and the manager state is unchanged: no relay entry is
registered and the listener is registered nowhere. -/
theorem subscribe_failure_propagates (st : SMState) (l : ListenerId) (c : String)
    (h : lookupReg st.registry c = none) :
    st.subscribe l c false = Except.error () ∧ applyOp st (Op.sub l c false) = st := by
  constructor
  · simp [SMState.subscribe, h]
  · exact applyOp_sub_fail h

/-- C4, witness at the empty manager and channel x. -/
theorem subscribe_failure_propagates_witness :
    lookupReg SMState.empty.registry "x" = none ∧
    (SMState.empty.subscribe 1 "x" false = Except.error () ∧
     applyOp SMState.empty (Op.sub 1 "x" false) = SMState.empty) :=
  ⟨rfl, subscribe_failure_propagates SMState.empty 1 "x" rfl⟩

/-- C5 (confirmed): in one sweep of the relay loop over the current
listener set, a listener whose enqueue succeeds receives the message
and stays registered, while a listener whose enqueue fails receives
nothing and is removed only by the post-sweep removal; whether some
other listener fails has no bearing on either outcome, and deliver is
a total function, so no delivery failure escapes the loop. -/
theorem delivery_failure_isolated (s : Subscription) (qs : Queues)
    (fails : ListenerId → Bool) (m : Msg) (l : ListenerId) (hl : l ∈ s.listeners) :
    (fails l = false →
      (s.deliver qs fails m).2 l = qs l ++ [m] ∧ l ∈ (s.deliver qs fails m).1.listeners) ∧
    (fails l = true →
      (s.deliver qs fails m).2 l = qs l ∧ l ∉ (s.deliver qs fails m).1.listeners) := by
  constructor
  · intro hfl
    constructor
    · rw [deliver_snd, if_pos ⟨hl, hfl⟩]
    · rw [deliver_fst_listeners, Finset.mem_sdiff]
      refine ⟨hl, ?_⟩
      intro hmem
      rw [Finset.mem_filter] at hmem
      rw [hfl] at hmem
      exact Bool.false_ne_true hmem.2
  · intro hfl
    constructor
    · rw [deliver_snd, if_neg]
      rintro ⟨-, hf0⟩
      rw [hfl] at hf0
      exact Bool.noConfusion hf0
    · rw [deliver_fst_listeners, Finset.mem_sdiff]
      rintro ⟨-, hnot⟩
      exact hnot (Finset.mem_filter.2 ⟨hl, hfl⟩)

/-- C5, witness: listeners 1 and 2, listener 2 broken; 1 still gets the
message, 2 gets nothing and is evicted. -/
theorem delivery_failure_isolated_witness :
    ((Subscription.mk 0 "c" {1, 2} false).deliver (fun _ => []) (fun x => x == 2) "a").2 1
        = [] ++ ["a"] ∧
    ((Subscription.mk 0 "c" {1, 2} false).deliver (fun _ => []) (fun x => x == 2) "a").2 2
        = [] ∧
    2 ∉ ((Subscription.mk 0 "c" {1, 2} false).deliver (fun _ => [])
        (fun x => x == 2) "a").1.listeners :=
  ⟨((delivery_failure_isolated (Subscription.mk 0 "c" {1, 2} false) (fun _ => [])
      (fun x => x == 2) "a" 1 (by decide)).1 rfl).1,
   ((delivery_failure_isolated (Subscription.mk 0 "c" {1, 2} false) (fun _ => [])
      (fun x => x == 2) "a" 2 (by decide)).2 rfl).1,
   ((delivery_failure_isolated (Subscription.mk 0 "c" {1, 2} false) (fun _ => [])
      (fun x => x == 2) "a" 2 (by decide)).2 rfl).2⟩

/-- C6 (confirmed): when every enqueue succeeds, a relay loop run over
any schedule of upstream messages appends exactly that schedule, in
order, to the queue of every listener registered before the first
message: each message is received exactly once and in upstream order. -/
theorem broadcast_in_order_exactly_once (msgs : List Msg) (s : Subscription) (qs : Queues)
    (l : ListenerId) (hl : l ∈ s.listeners) :
    (Subscription.broadcast (fun _ _ => false) msgs s qs).2 l = qs l ++ msgs :=
  (broadcast_nofail l msgs s qs hl).2

/-- C6, witness: two listeners, two messages, delivered in order. -/
theorem broadcast_in_order_exactly_once_witness :
    (1 ∈ (Subscription.mk 0 "c" {1, 2} false).listeners) ∧
    (Subscription.broadcast (fun _ _ => false) ["a", "b"]
        (Subscription.mk 0 "c" {1, 2} false) (fun _ => [])).2 1 = [] ++ ["a", "b"] :=
  ⟨by decide,
   broadcast_in_order_exactly_once ["a", "b"] (Subscription.mk 0 "c" {1, 2} false)
     (fun _ => []) 1 (by decide)⟩

/-- C7 (confirmed): subscribing the same listener to the same channel
twice leaves the manager in exactly the state a single subscribe
produces, in any reachable state; in particular the relay listener set
is the same and every later message is delivered to that listener at
most once, since delivery sweeps the set and queue contents coincide. -/
theorem subscribe_idempotent (ops : List Op) (l : ListenerId) (c : String) :
    run (ops ++ [Op.sub l c true, Op.sub l c true]) = run (ops ++ [Op.sub l c true]) := by
  rw [run, run, List.foldl_append, List.foldl_append]
  show applyOp (applyOp (List.foldl applyOp SMState.empty ops) (Op.sub l c true))
      (Op.sub l c true)
    = applyOp (List.foldl applyOp SMState.empty ops) (Op.sub l c true)
  exact double_sub (inv_run ops) l c

/-- C8 (confirmed): unsubscribe for a channel with no relay entry
returns normally (it is a total function) and leaves the whole manager
state unchanged; the source only emits a log line, which the spec
places out of scope. -/
theorem unsubscribe_unknown_channel_noop (st : SMState) (c : String)
    (h : lookupReg st.registry c = none) :
    st.unsubscribe c = st := by
  simp [SMState.unsubscribe, h]

/-- C8, witness at the empty manager. -/
theorem unsubscribe_unknown_channel_noop_witness :
    lookupReg SMState.empty.registry "x" = none ∧
    SMState.empty.unsubscribe "x" = SMState.empty :=
  ⟨rfl, unsubscribe_unknown_channel_noop SMState.empty "x" rfl⟩

/-- C9 (confirmed): unsubscribe of a registered channel mutates only
the registry entry for that channel: every relay object — including the
popped one, whose listener set is therefore untouched — the queues, the
upstream traces and the sid allocator are unchanged, the entry for the
channel is gone, and lookup of every other channel is unchanged. -/
theorem unsubscribe_frame (st : SMState) (c : String) (sid : Nat)
    (h : lookupReg st.registry c = some sid) :
    (st.unsubscribe c).relays = st.relays ∧
    (st.unsubscribe c).queues = st.queues ∧
    (st.unsubscribe c).opens = st.opens ∧
    (st.unsubscribe c).releases = st.releases ∧
    (st.unsubscribe c).nextSid = st.nextSid ∧
    lookupReg (st.unsubscribe c).registry c = none ∧
    ∀ c2, c2 ≠ c → lookupReg (st.unsubscribe c).registry c2 = lookupReg st.registry c2 := by
  have hunsub : st.unsubscribe c = { st with registry := removeKey st.registry c } := by
    simp [SMState.unsubscribe, h]
  rw [hunsub]
  exact ⟨rfl, rfl, rfl, rfl, rfl, lookupReg_removeKey_self st.registry c,
    fun c2 hne => lookupReg_removeKey_ne st.registry c c2 hne⟩

/-- C9, witness: two channels registered, unsubscribe one. -/
theorem unsubscribe_frame_witness :
    lookupReg (run [Op.sub 1 "c" true, Op.sub 2 "d" true]).registry "c" = some 0 ∧
    (((run [Op.sub 1 "c" true, Op.sub 2 "d" true]).unsubscribe "c").relays
       = (run [Op.sub 1 "c" true, Op.sub 2 "d" true]).relays ∧
     ((run [Op.sub 1 "c" true, Op.sub 2 "d" true]).unsubscribe "c").queues
       = (run [Op.sub 1 "c" true, Op.sub 2 "d" true]).queues ∧
     ((run [Op.sub 1 "c" true, Op.sub 2 "d" true]).unsubscribe "c").opens
       = (run [Op.sub 1 "c" true, Op.sub 2 "d" true]).opens ∧
     ((run [Op.sub 1 "c" true, Op.sub 2 "d" true]).unsubscribe "c").releases
       = (run [Op.sub 1 "c" true, Op.sub 2 "d" true]).releases ∧
     ((run [Op.sub 1 "c" true, Op.sub 2 "d" true]).unsubscribe "c").nextSid
       = (run [Op.sub 1 "c" true, Op.sub 2 "d" true]).nextSid ∧
     lookupReg ((run [Op.sub 1 "c" true, Op.sub 2 "d" true]).unsubscribe "c").registry "c"
       = none ∧
     ∀ c2, c2 ≠ "c" →
       lookupReg ((run [Op.sub 1 "c" true, Op.sub 2 "d" true]).unsubscribe "c").registry c2
         = lookupReg (run [Op.sub 1 "c" true, Op.sub 2 "d" true]).registry c2) :=
  ⟨by decide, unsubscribe_frame (run [Op.sub 1 "c" true, Op.sub 2 "d" true]) "c" 0 (by decide)⟩

/-- C10 (confirmed): in every state reachable by any sequence of
operations, a relay object reachable under a registry key carries that
key as its channel name. -/
theorem registry_key_name_consistent (ops : List Op) (c : String) (sid : Nat)
    (s : Subscription) (hmem : (c, sid) ∈ (run ops).registry)
    (hs : s ∈ (run ops).relays) (hsid : s.sid = sid) :
    s.name = c :=
  (inv_run ops).2.2 c sid hmem s hs hsid

/-- C10, witness on a concrete reachable state. -/
theorem registry_key_name_consistent_witness :
    ("c", 0) ∈ (run [Op.sub 1 "c" true]).registry ∧
    (Subscription.mk 0 "c" {1} false) ∈ (run [Op.sub 1 "c" true]).relays ∧
    (Subscription.mk 0 "c" {1} false).name = "c" :=
  ⟨by decide, by decide,
   registry_key_name_consistent [Op.sub 1 "c" true] "c" 0 (Subscription.mk 0 "c" {1} false)
     (by decide) (by decide) rfl⟩

end Streamis
